import Mathlib

/-!
Verification of the pabawi source-rewriting pipeline (backend/scripts).

The six Python scripts transform TypeScript route files by regular-expression
substitution.  We embed each script's patterns as deterministic scanners over
`List Char` together with a generic leftmost, non-overlapping substitution
driver mirroring `re.sub`.  Every pattern used by the scripts is built from
literals, greedy character-class runs and one bounded-nesting group; for each
of these the backtracking regex match is unique, so the deterministic scanners
below compute exactly the match Python's `re` engine finds.  Replacement
builders transcribe the scripts' replacement templates verbatim.
-/

set_option maxRecDepth 20000

abbrev Chars := List Char

/-- Python `\s` for the ASCII texts these scripts process. -/
def pyWs (c : Char) : Bool :=
  c = ' ' || c = '\t' || c = '\n' || c = '\r' || c = '\x0b' || c = '\x0c'

/-- Python `\w` for ASCII texts: letters, digits and underscore. -/
def wordCh (c : Char) : Bool :=
  c.isAlpha || c.isDigit || c = '_'

/-- Expect a literal prefix; return the remaining text on success. -/
def pLit : Chars → Chars → Option Chars
  | [], s => some s
  | _ :: _, [] => none
  | l :: ls, c :: cs => if c = l then pLit ls cs else none

/-- Greedy run of characters satisfying `p` (the match of `p*`); returns the
run and the remaining text. -/
def pRun (p : Char → Bool) : Chars → Chars × Chars
  | [] => ([], [])
  | c :: cs =>
    if p c then
      let r := pRun p cs
      (c :: r.1, r.2)
    else ([], c :: cs)

/-- Does `n` occur as a prefix of `s`? -/
def startsWithL : Chars → Chars → Bool
  | [], _ => true
  | _ :: _, [] => false
  | a :: as, b :: bs => if b = a then startsWithL as bs else false

/-- Does `n` occur as a substring of `s`?  Mirrors Python's `in`. -/
def occursIn (n : Chars) : Chars → Bool
  | [] => n.isEmpty
  | c :: cs => startsWithL n (c :: cs) || occursIn n cs

def countOccF (n : Chars) : Nat → Chars → Nat
  | 0, _ => 0
  | _ + 1, [] => 0
  | fuel + 1, c :: cs =>
    if startsWithL n (c :: cs) then
      1 + countOccF n fuel ((c :: cs).drop (max n.length 1))
    else countOccF n fuel cs

/-- Count of non-overlapping occurrences of `n` in `s`, scanning left to
right (the semantics of `str.count`). -/
def countOcc (n : Chars) (s : Chars) : Nat := countOccF n s.length s

def replaceAllF (n r : Chars) : Nat → Chars → Chars
  | 0, s => s
  | _ + 1, [] => []
  | fuel + 1, c :: cs =>
    if startsWithL n (c :: cs) then
      r ++ replaceAllF n r fuel ((c :: cs).drop (max n.length 1))
    else c :: replaceAllF n r fuel cs

/-- Python `str.replace`: replace every non-overlapping occurrence of
`n` by `r`, scanning left to right. -/
def replaceAll (n r : Chars) (s : Chars) : Chars := replaceAllF n r s.length s

/-- Python `str.strip` over one kind of character. -/
def stripCh (p : Char → Bool) (l : Chars) : Chars :=
  ((l.dropWhile p).reverse.dropWhile p).reverse

/-- Python `str.strip()` (whitespace on both ends). -/
def pyStrip (l : Chars) : Chars := stripCh pyWs l

def collapseWsF : Nat → Chars → Chars
  | 0, s => s
  | _ + 1, [] => []
  | fuel + 1, c :: cs =>
    if pyWs c then ' ' :: collapseWsF fuel (cs.dropWhile pyWs)
    else c :: collapseWsF fuel cs

/-- `re.sub(r'\s+', ' ', ·)`: collapse each maximal whitespace run to one
space. -/
def collapseWs (l : Chars) : Chars := collapseWsF l.length l

/-- Python `str.split(':')`. -/
def splitOnColon : Chars → List Chars
  | [] => [[]]
  | c :: cs =>
    if c = ':' then [] :: splitOnColon cs
    else
      match splitOnColon cs with
      | [] => [[c]]
      | p :: ps => (c :: p) :: ps

/-!  The generic `re.sub` driver.  A matcher maps a text to the replacement
text and total match length when a match starts at position 0.  `subLoopF`
scans left to right, splicing replacements and skipping past each match,
exactly as `re.sub` does; `fuel ≥ length` makes the fuel irrelevant. -/

def subLoopF (m : Chars → Option (Chars × Nat)) : Nat → Chars → Chars
  | 0, _ => []
  | _ + 1, [] => []
  | fuel + 1, c :: cs =>
    match m (c :: cs) with
    | some (r, n) => r ++ subLoopF m fuel ((c :: cs).drop (max n 1))
    | none => c :: subLoopF m fuel cs

/-- `re.sub` with matcher `m`: leftmost, non-overlapping matches replaced. -/
def subLoop (m : Chars → Option (Chars × Nat)) (s : Chars) : Chars :=
  subLoopF m s.length s

/-- Does `m` match starting at any position of `s`? -/
def anyMatch (m : Chars → Option (Chars × Nat)) : Chars → Bool
  | [] => false
  | c :: cs => (m (c :: cs)).isSome || anyMatch m cs

/-- Decomposition of a `subLoop` run: the unmatched gaps, the matched spans
and the replacement texts, in order.  Gaps and spans interleave to rebuild the
input; gaps and replacements interleave to the output. -/
def subPartsF (m : Chars → Option (Chars × Nat)) :
    Nat → Chars → List Chars × List Chars × List Chars
  | 0, s => ([s], [], [])
  | _ + 1, [] => ([[]], [], [])
  | fuel + 1, c :: cs =>
    match m (c :: cs) with
    | some (r, n) =>
      let k := max n 1
      let rec' := subPartsF m fuel ((c :: cs).drop k)
      ([] :: rec'.1, ((c :: cs).take k) :: rec'.2.1, r :: rec'.2.2)
    | none =>
      match subPartsF m fuel cs with
      | (g :: gs, sps, rps) => ((c :: g) :: gs, sps, rps)
      | ([], sps, rps) => ([[c]], sps, rps)

def subParts (m : Chars → Option (Chars × Nat)) (s : Chars) :
    List Chars × List Chars × List Chars :=
  subPartsF m s.length s

/-- Interleave gaps with pieces: `g0 ++ p1 ++ g1 ++ p2 ++ ...`. -/
def weave : List Chars → List Chars → Chars
  | [], _ => []
  | g :: _, [] => g
  | g :: gs, p :: ps => g ++ p ++ weave gs ps

/-! # add-error-debug-info.py : catch-block instrumentation -/

/-- Literal part of the pattern
`(\} catch \(error\) \{\s*const duration = Date\.now\(\) - startTime;)`. -/
def litCatch : Chars := "\x7d catch (error) \x7b".data

def litDuration : Chars := "const duration = Date.now() - startTime;".data

/-- Text inserted after the matched group by `add_debug_to_catch_block`. -/
def catchIns : Chars :=
  ("\n\n        if (debugInfo) \x7b\n          debugInfo.duration = duration;\n          expertModeService.addError(debugInfo, \x7b\n            message: `Error: $\x7berror instanceof Error ? error.message : \x27Unknown error\x27\x7d`,\n            stack: error instanceof Error ? error.stack : undefined,\n            level: \x27error\x27,\n          \x7d);\n          debugInfo.performance = expertModeService.collectPerformanceMetrics();\n          debugInfo.context = expertModeService.collectRequestContext(req);\n        \x7d").data

/-- Matcher for `add_debug_to_catch_block`: the literal catch header, a
whitespace run, then the duration statement; the replacement keeps the whole
matched group and appends the debug-recording block. -/
def mCatch (s : Chars) : Option (Chars × Nat) :=
  match pLit litCatch s with
  | none => none
  | some s1 =>
    let r := pRun pyWs s1
    match pLit litDuration r.2 with
    | none => none
    | some s3 => some (litCatch ++ r.1 ++ litDuration ++ catchIns, s.length - s3.length)

/-- `add_debug_to_catch_block` from add-error-debug-info.py. -/
def add_debug_to_catch_block (s : Chars) : Chars := subLoop mCatch s

/-- A minimal catch region matched by the pass. -/
def catchSnippet : Chars :=
  "\x7d catch (error) \x7bconst duration = Date.now() - startTime;".data

/-! # add-error-debug-info.py : error-response wrapping (flat matcher) -/

def litRes : Chars := "res.status(".data

def litJsonOpen : Chars := ").json(\x7b".data

/-- Literal `error: \x7b` of the flat pattern (exactly one space). -/
def litErrorSp : Chars := "error: \x7b".data

def litCloseSemi : Chars := "\x7d);".data

/-- Replacement built by `add_debug_to_error_responses` (the captured error
content is spliced back verbatim). -/
def replErrFlat (d e : Chars) : Chars :=
  ("const errorResponse = \x7b\n          error: \x7b").data ++ e ++
    ("\x7d\n        \x7d;\n        res.status(").data ++ d ++
    (").json(\n          debugInfo ? expertModeService.attachDebugInfo(errorResponse, debugInfo) : errorResponse\n        );").data

/-- Matcher for
`res\.status\((\d+)\)\.json\(\{\s*error: \{([^}]+)\}\s*\}\);`
(the flat error-response pattern of add-error-debug-info.py). -/
def mErrFlat (s : Chars) : Option (Chars × Nat) :=
  match pLit litRes s with
  | none => none
  | some s1 =>
    let rd := pRun Char.isDigit s1
    if rd.1.isEmpty then none else
    match pLit litJsonOpen rd.2 with
    | none => none
    | some s3 =>
      let rw := pRun pyWs s3
      match pLit litErrorSp rw.2 with
      | none => none
      | some s5 =>
        let re' := pRun (fun c => c != '\x7d') s5
        if re'.1.isEmpty then none else
        match re'.2 with
        | '\x7d' :: s7 =>
          let rw2 := pRun pyWs s7
          match pLit litCloseSemi rw2.2 with
          | none => none
          | some s9 => some (replErrFlat rd.1 re'.1, s.length - s9.length)
        | _ => none

/-- `add_debug_to_error_responses` from add-error-debug-info.py. -/
def add_debug_to_error_responses (s : Chars) : Chars := subLoop mErrFlat s

/-! # add-error-debug-info.py : early-return handling -/

def litIfNot : Chars := "if (!puppetserverService) \x7b".data

def litWarn : Chars := "logger.warn".data

/-- Does `needle` occur in `s` with at least one character after it? -/
def occursWithTail (needle : Chars) : Chars → Bool
  | [] => false
  | c :: cs =>
    (startsWithL needle (c :: cs) && needle.length < (c :: cs).length) ||
      occursWithTail needle cs

/-- `[^}]+logger\.warn[^}]+`: the brace-free run contains `logger.warn` with
at least one character before and after it. -/
def hasPaddedWarn (u : Chars) : Bool :=
  match u with
  | [] => false
  | _ :: rest => occursWithTail litWarn rest

/-- Parse the second group `res\.status\(\d+\)\.json\(\{[^}]+\}\);` of the
early-return pattern; return the matched span and the remaining text. -/
def parseRes (s : Chars) : Option (Chars × Chars) :=
  match pLit litRes s with
  | none => none
  | some s1 =>
    let rd := pRun Char.isDigit s1
    if rd.1.isEmpty then none else
    match pLit litJsonOpen rd.2 with
    | none => none
    | some s3 =>
      let re' := pRun (fun c => c != '\x7d') s3
      if re'.1.isEmpty then none else
      match pLit litCloseSemi re'.2 with
      | none => none
      | some s5 =>
        some (litRes ++ rd.1 ++ litJsonOpen ++ re'.1 ++ litCloseSemi, s5)

/-- The inner `re.search` pattern
`res\.status\((\d+)\)\.json\(\{([^}]+)\}\);` matched at position 0,
returning the two captures. -/
def innerMatchAt (s : Chars) : Option (Chars × Chars) :=
  match pLit litRes s with
  | none => none
  | some s1 =>
    let rd := pRun Char.isDigit s1
    if rd.1.isEmpty then none else
    match pLit litJsonOpen rd.2 with
    | none => none
    | some s3 =>
      let re' := pRun (fun c => c != '\x7d') s3
      if re'.1.isEmpty then none else
      match pLit litCloseSemi re'.2 with
      | none => none
      | some _ => some (rd.1, re'.1)

/-- `re.search` with the inner pattern: first matching position wins. -/
def innerSearch : Chars → Option (Chars × Chars)
  | [] => none
  | c :: cs =>
    match innerMatchAt (c :: cs) with
    | some r => some r
    | none => innerSearch cs

/-- Match of the early-return outer pattern at position 0: returns
(group 1, group 2, total match length). -/
def earlyMatchAt (s : Chars) : Option (Chars × Chars × Nat) :=
  match pLit litIfNot s with
  | none => none
  | some s1 =>
    let ru := pRun (fun c => c != '\x7d') s1
    if hasPaddedWarn ru.1 then
      match ru.2 with
      | '\x7d' :: s3 =>
        let rw := pRun pyWs s3
        match parseRes rw.2 with
        | some (g2, rest) =>
          some (litIfNot ++ ru.1 ++ ['\x7d'], g2, s.length - rest.length)
        | none => none
      | _ => none
    else none

/-- Replacement template of `add_debug_to_early_returns` when the inner
search succeeds. -/
def earlyTemplate (g1 n e : Chars) : Chars :=
  g1 ++
    ("\n\n        if (debugInfo) \x7b\n          debugInfo.duration = Date.now() - startTime;\n          expertModeService.addWarning(debugInfo, \x7b\n            message: \"Puppetserver integration is not configured\",\n            level: \x27warn\x27,\n          \x7d);\n          debugInfo.performance = expertModeService.collectPerformanceMetrics();\n          debugInfo.context = expertModeService.collectRequestContext(req);\n        \x7d\n\n        const errorResponse = \x7b\n          ").data ++
    e ++
    ("\n        \x7d;\n        res.status(").data ++ n ++
    (").json(\n          debugInfo ? expertModeService.attachDebugInfo(errorResponse, debugInfo) : errorResponse\n        );").data

/-- The replacement function of `add_debug_to_early_returns`: searches the
captured response for the inner pattern; on success builds the transformed
block, otherwise returns the whole match unchanged (`return match.group(0)`). -/
def earlyReplFn (g0 g1 g2 : Chars) : Chars :=
  match innerSearch g2 with
  | some (n, e) => earlyTemplate g1 n e
  | none => g0

def mEarly (s : Chars) : Option (Chars × Nat) :=
  match earlyMatchAt s with
  | some (g1, g2, len) => some (earlyReplFn (s.take len) g1 g2, len)
  | none => none

/-- `add_debug_to_early_returns` from add-error-debug-info.py. -/
def add_debug_to_early_returns (s : Chars) : Chars := subLoop mEarly s

/-! # add-expert-mode-init.py -/

def litStart : Chars := "const startTime = Date.now();".data

def litLogger : Chars := "logger.info(".data

/-- Text inserted between the two groups by `add_expert_mode_init`. -/
def initIns : Chars :=
  ("\n      const expertModeService = new ExpertModeService();\n      const requestId = req.id ?? expertModeService.generateRequestId();\n\n      // Create debug info once at the start if expert mode is enabled\n      const debugInfo = req.expertMode\n        ? expertModeService.createDebugInfo(\x27OPERATION_PLACEHOLDER\x27, requestId, 0)\n        : null;\n\n      if (debugInfo) \x7b\n        expertModeService.setIntegration(debugInfo, \x27puppetserver\x27);\n      \x7d\n\n      ").data

/-- Matcher for
`(const startTime = Date\.now\(\);)\s*\n\s*\n\s*(logger\.info\()`:
the whitespace between the groups must contain at least two newlines. -/
def mInit (s : Chars) : Option (Chars × Nat) :=
  match pLit litStart s with
  | none => none
  | some s1 =>
    let rw := pRun pyWs s1
    if 2 ≤ rw.1.count '\n' then
      match pLit litLogger rw.2 with
      | none => none
      | some s3 => some (litStart ++ initIns ++ litLogger, s.length - s3.length)
    else none

/-- `add_expert_mode_init` from add-expert-mode-init.py. -/
def add_expert_mode_init (s : Chars) : Chars := subLoop mInit s

/-! # add-expert-mode-init.py : operation-name resolution -/

def litRouterDot : Chars := "router.".data

def litMGet : Chars := "get".data
def litMPost : Chars := "post".data
def litMDelete : Chars := "delete".data

/-- The alternation `(get|post|delete)` followed by `\(`, tried in pattern
order. -/
def pMethod (s : Chars) : Option Chars :=
  match pLit (litMGet ++ ['(']) s with
  | some r => some r
  | none =>
    match pLit (litMPost ++ ['(']) s with
    | some r => some r
    | none => pLit (litMDelete ++ ['(']) s

def opPlaceholder : Chars := "OPERATION_PLACEHOLDER".data

/-- Lazy `.*?TOKEN` with DOTALL: consume through the first occurrence of
`TOKEN`, returning the remaining text. -/
def findThrough (token : Chars) : Chars → Option Chars
  | [] => none
  | c :: cs =>
    if startsWithL token (c :: cs) then some ((c :: cs).drop token.length)
    else findThrough token cs

/-- The static route table of `fix_operation_names` (path-pattern text with
quotes, canonical operation name). -/
def routes : List (Chars × Chars) :=
  [("\"/nodes/:certname/status\"".data, "GET /api/integrations/puppetserver/nodes/:certname/status".data),
   ("\"/nodes/:certname/facts\"".data, "GET /api/integrations/puppetserver/nodes/:certname/facts".data),
   ("\"/catalog/:certname/:environment\"".data, "GET /api/integrations/puppetserver/catalog/:certname/:environment".data),
   ("\"/catalog/compare\"".data, "POST /api/integrations/puppetserver/catalog/compare".data),
   ("\"/environments\"".data, "GET /api/integrations/puppetserver/environments".data),
   ("\"/environments/:name\"".data, "GET /api/integrations/puppetserver/environments/:name".data),
   ("\"/environments/:name/deploy\"".data, "POST /api/integrations/puppetserver/environments/:name/deploy".data),
   ("\"/environments/:name/cache\"".data, "DELETE /api/integrations/puppetserver/environments/:name/cache".data),
   ("\"/status/services\"".data, "GET /api/integrations/puppetserver/status/services".data),
   ("\"/status/simple\"".data, "GET /api/integrations/puppetserver/status/simple".data),
   ("\"/admin-api\"".data, "GET /api/integrations/puppetserver/admin-api".data),
   ("\"/metrics\"".data, "GET /api/integrations/puppetserver/metrics".data)]

/-- Matcher for one route entry:
`router\.(get|post|delete)\(\s*<path>.*?OPERATION_PLACEHOLDER` with DOTALL;
the replacement is the whole match with the placeholder substituted
(`match.group(0).replace(...)`). -/
def mRoute (e : Chars × Chars) (s : Chars) : Option (Chars × Nat) :=
  match pLit litRouterDot s with
  | none => none
  | some s1 =>
    match pMethod s1 with
    | none => none
    | some s2 =>
      let rw := pRun pyWs s2
      match pLit e.1 rw.2 with
      | none => none
      | some s4 =>
        match findThrough opPlaceholder s4 with
        | none => none
        | some rest =>
          let n := s.length - rest.length
          some (replaceAll opPlaceholder e.2 (s.take n), n)

/-- `fix_operation_names` from add-expert-mode-init.py: each table entry's
substitution is applied over the whole text in table order. -/
def fix_operation_names (s : Chars) : Chars :=
  routes.foldl (fun acc e => subLoop (mRoute e) acc) s

/-! # fix-all-error-responses.py : depth-aware error-response matcher -/

def litErrColon : Chars := "error:".data

/-- The closing part `\}\s*\}\);` of the nested pattern, starting at the
candidate closing brace. -/
def pTail (s : Chars) : Option Chars :=
  match s with
  | '\x7d' :: s1 =>
    let rw := pRun pyWs s1
    pLit litCloseSemi rw.2
  | _ => none

/-- Scanner for the capture group `[^}]+(?:\{[^}]*\}[^}]*)*` followed by
`\}\s*\}\);`.  `acc` holds the consumed capture reversed, `opens` counts
brace openers usable to close a nested group.  At each closing brace the
scanner first tries to finish the match (`pTail`); otherwise the brace closes
a nested group when an opener is available.  For this pattern the complete
backtracking match is unique, so this deterministic scan computes exactly
the match Python finds. -/
def scanBody : Chars → Nat → Chars → Option (Chars × Chars)
  | _, _, [] => none
  | acc, opens, c :: rest =>
    if c = '\x7d' then
      match (if acc.isEmpty then none else pTail (c :: rest)) with
      | some r => some (acc.reverse, r)
      | none =>
        if 0 < opens then scanBody (c :: acc) 0 rest else none
    else
      scanBody (c :: acc)
        (if c = '\x7b' then (if acc.isEmpty then opens else opens + 1) else opens)
        rest

/-- The cleanup applied to the captured error content by
`fix_error_responses`: strip, collapse whitespace runs, drop spaces before
commas. -/
def cleanErr (e : Chars) : Chars :=
  replaceAll (" ,".data) (",".data) (collapseWs (pyStrip e))

/-- Replacement built by `fix_error_responses`. -/
def replErrNested (d body : Chars) : Chars :=
  ("const errorResponse = \x7b\n          error: \x7b ").data ++ cleanErr body ++
    (" \x7d\n        \x7d;\n        res.status(").data ++ d ++
    (").json(\n          debugInfo ? expertModeService.attachDebugInfo(errorResponse, debugInfo) : errorResponse\n        );").data

/-- Matcher for
`res\.status\((\d+)\)\.json\(\{\s*error:\s*\{([^}]+(?:\{[^}]*\}[^}]*)*)\}\s*\}\);`
(the depth-aware error-response pattern of fix-all-error-responses.py). -/
def mErrNested (s : Chars) : Option (Chars × Nat) :=
  match pLit litRes s with
  | none => none
  | some s1 =>
    let rd := pRun Char.isDigit s1
    if rd.1.isEmpty then none else
    match pLit litJsonOpen rd.2 with
    | none => none
    | some s3 =>
      let rw := pRun pyWs s3
      match pLit litErrColon rw.2 with
      | none => none
      | some s5 =>
        let rw2 := pRun pyWs s5
        match rw2.2 with
        | '\x7b' :: s7 =>
          match scanBody [] 0 s7 with
          | some (body, rest) => some (replErrNested rd.1 body, s.length - rest.length)
          | none => none
        | _ => none

/-- `fix_error_responses` from fix-all-error-responses.py. -/
def fix_error_responses (s : Chars) : Chars := subLoop mErrNested s

/-! # transform-expert-mode.py -/

def litHandle : Chars := "handleExpertModeResponse".data
def litLParen : Chars := "(".data
def litReqArg : Chars := "req,".data
def litResArg : Chars := "res,".data
def litRespData : Chars := "responseData,".data
def litQuote : Chars := "\x27".data
def litQuoteComma : Chars := "\x27,".data
def litDurArg : Chars := "duration,".data
def litLBrace : Chars := "\x7b".data
def litRBrace : Chars := "\x7d".data
def litRParenSemi : Chars := ");".data

/-- Whitespace run then a literal (`\s*lit`). -/
def pWsLit (lit : Chars) (s : Chars) : Option Chars :=
  pLit lit (pRun pyWs s).2

/-- The `addMetadata` line inserted when the captured metadata splits on `:`
into exactly two parts. -/
def addMetaLine (k v : Chars) : Chars :=
  ("\n          expertModeService.addMetadata(debugInfo, \x27").data ++ k ++
    ("\x27, ").data ++ v ++ (");").data

def expertBase1 : Chars :=
  ("if (debugInfo) \x7b\n          debugInfo.duration = duration;").data

def expertBase2 : Chars :=
  ("\n          debugInfo.performance = expertModeService.collectPerformanceMetrics();\n          debugInfo.context = expertModeService.collectRequestContext(req);\n          res.json(expertModeService.attachDebugInfo(responseData, debugInfo));\n        \x7d else \x7b\n          res.json(responseData);\n        \x7d").data

/-- Replacement of `transform_handle_expert_mode_response`: the metadata is
stripped, and an `addMetadata` call is inserted exactly when it is non-empty
and splits on `:` into exactly two parts (key and value are stripped). -/
def mkExpertRepl (_op _integ meta : Chars) : Chars :=
  let m := pyStrip meta
  let mid : Chars :=
    if m.isEmpty then []
    else
      match splitOnColon m with
      | [k, v] => addMetaLine (pyStrip k) (pyStrip v)
      | _ => []
  expertBase1 ++ mid ++ expertBase2

/-- Matcher for the `handleExpertModeResponse(...)` call pattern of
transform-expert-mode.py. -/
def mHandleExpert (s : Chars) : Option (Chars × Nat) :=
  match pLit litHandle s with
  | none => none
  | some s1 =>
  match pWsLit litLParen s1 with
  | none => none
  | some s2 =>
  match pWsLit litReqArg s2 with
  | none => none
  | some s3 =>
  match pWsLit litResArg s3 with
  | none => none
  | some s4 =>
  match pWsLit litRespData s4 with
  | none => none
  | some s5 =>
  match pWsLit litQuote s5 with
  | none => none
  | some s6 =>
  let rg1 := pRun (fun c => c != '\x27') s6
  if rg1.1.isEmpty then none else
  match pLit litQuoteComma rg1.2 with
  | none => none
  | some s8 =>
  match pWsLit litDurArg s8 with
  | none => none
  | some s9 =>
  match pWsLit litQuote s9 with
  | none => none
  | some s10 =>
  let rg2 := pRun (fun c => c != '\x27') s10
  if rg2.1.isEmpty then none else
  match pLit litQuoteComma rg2.2 with
  | none => none
  | some s12 =>
  match pWsLit litLBrace s12 with
  | none => none
  | some s13 =>
  let rg3 := pRun (fun c => c != '\x7d') s13
  match pLit litRBrace rg3.2 with
  | none => none
  | some s15 =>
  match pWsLit litRParenSemi s15 with
  | none => none
  | some s16 => some (mkExpertRepl rg1.1 rg2.1 rg3.1, s.length - s16.length)

/-- `transform_handle_expert_mode_response` from transform-expert-mode.py. -/
def transform_handle_expert_mode_response (s : Chars) : Chars :=
  subLoop mHandleExpert s

def litHelperComma : Chars := "handleExpertModeResponse,".data

/-- Matcher for `handleExpertModeResponse,\s*` (import cleanup). -/
def mRemoveHelper (s : Chars) : Option (Chars × Nat) :=
  match pLit litHelperComma s with
  | none => none
  | some s1 => some ([], s.length - (pRun pyWs s1).2.length)

def emsImportLit : Chars := "import \x7b ExpertModeService \x7d".data

def utilsLit : Chars := "from \"./utils\";".data

def utilsWithImportLit : Chars :=
  utilsLit ++ ("\nimport \x7b ExpertModeService \x7d from \"../../services/ExpertModeService\";").data

/-- The import-management step of transform-expert-mode.py's `main`: insert
the `ExpertModeService` import after the utils import when the exact import
text is absent. -/
def ensureImport (c : Chars) : Chars :=
  if occursIn emsImportLit c then c
  else replaceAll utilsLit utilsWithImportLit c

/-- The text pipeline of transform-expert-mode.py's `main` (the file I/O
around it reads the file before and writes it after): remove the obsolete
helper from imports, ensure the service import, rewrite the calls. -/
def transformExpertModeMain (c : Chars) : Chars :=
  transform_handle_expert_mode_response (ensureImport (subLoop mRemoveHelper c))

/-- `n`-fold iteration of a text pipeline (repeated script runs). -/
def iterN (f : Chars → Chars) : Nat → Chars → Chars
  | 0, c => c
  | n + 1, c => iterN f n (f c)

/-! # fix-lint-errors.py -/

def litDollarBrace : Chars := "$\x7b".data

def litDotLength : Chars := ".length".data

def endsWithL (n l : Chars) : Bool := startsWithL n.reverse l.reverse

/-- `${String(\1)}` with the captured group spliced in. -/
def tplStringRepl (g : Chars) : Chars :=
  ("$\x7bString(").data ++ g ++ (")\x7d").data

/-- Matcher for `\$\{([^}]+\.length)\}`. -/
def mTplLength (s : Chars) : Option (Chars × Nat) :=
  match pLit litDollarBrace s with
  | none => none
  | some s1 =>
    let ru := pRun (fun c => c != '\x7d') s1
    if endsWithL litDotLength ru.1 && litDotLength.length < ru.1.length then
      match ru.2 with
      | '\x7d' :: s3 => some (tplStringRepl ru.1, s.length - s3.length)
      | _ => none
    else none

def tplVars : List Chars :=
  ["count".data, "total".data, "size".data, "index".data, "page".data,
   "limit".data, "offset".data]

def tryTplVar : List Chars → Chars → Option (Chars × Chars)
  | [], _ => none
  | v :: vs, s1 =>
    match pLit (v ++ ['\x7d']) s1 with
    | some r => some (v, r)
    | none => tryTplVar vs s1

/-- Matcher for `\$\{(count|total|size|index|page|limit|offset)\}`. -/
def mTplVar (s : Chars) : Option (Chars × Nat) :=
  match pLit litDollarBrace s with
  | none => none
  | some s1 =>
    match tryTplVar tplVars s1 with
    | some (v, rest) => some (tplStringRepl v, s.length - rest.length)
    | none => none

/-- `fix_template_literals` from fix-lint-errors.py (patterns applied in
list order). -/
def fix_template_literals (c : Chars) : Chars :=
  subLoop mTplVar (subLoop mTplLength c)

def litPipes : Chars := "||".data

/-- Matcher for `(\w+)\s*\|\|\s*0\b`. -/
def mNullishZero (s : Chars) : Option (Chars × Nat) :=
  let rw := pRun wordCh s
  if rw.1.isEmpty then none else
  let r1 := pRun pyWs rw.2
  match pLit litPipes r1.2 with
  | none => none
  | some s3 =>
    let r2 := pRun pyWs s3
    match r2.2 with
    | '0' :: s5 =>
      match s5 with
      | [] => some (rw.1 ++ (" ?? 0").data, s.length)
      | c :: _ =>
        if wordCh c then none
        else some (rw.1 ++ (" ?? 0").data, s.length - s5.length)
    | _ => none

/-- Matcher for `(\w+)\s*\|\|\s*""` and its `''` twin; `repl` is the text
after the kept group (the `''` pattern's raw replacement string carries
literal backslashes before each quote). -/
def mNullishStr (tail repl : Chars) (s : Chars) : Option (Chars × Nat) :=
  let rw := pRun wordCh s
  if rw.1.isEmpty then none else
  let r1 := pRun pyWs rw.2
  match pLit litPipes r1.2 with
  | none => none
  | some s3 =>
    let r2 := pRun pyWs s3
    match pLit tail r2.2 with
    | none => none
    | some s5 => some (rw.1 ++ (" ?? ").data ++ repl, s.length - s5.length)

def litDq : Chars := "\"\"".data
def litSq : Chars := "\x27\x27".data
def sqReplBack : Chars := "\\\x27\\\x27".data

/-- `fix_nullish_coalescing` from fix-lint-errors.py (patterns applied in
list order). -/
def fix_nullish_coalescing (c : Chars) : Chars :=
  subLoop (mNullishStr litSq sqReplBack)
    (subLoop (mNullishStr litDq litDq) (subLoop mNullishZero c))

/-- The filesystem effect of fix-lint-errors.py's `main`: for each file the
fixed content is computed, but the write call is commented out, so the file
list is returned with its original contents; the second component is the
report of files that would have been fixed. -/
def fix_lint_errors_main (fs : List (String × Chars)) :
    List (String × Chars) × List String :=
  (fs.map fun f => (f.1, f.2),
   (fs.filter fun f =>
     fix_nullish_coalescing (fix_template_literals f.2) != f.2).map fun f => f.1)

/-! # add-logging-to-routes.py -/

def litAsync : Chars := "asyncHandler(async (".data
def litPromise : Chars := "): Promise<void> => \x7b".data

/-- The `asyncHandler(...)` search of `add_logging_to_route`, matched at
position 0; returns the text after the match. -/
def asyncMatchAt (s : Chars) : Option Chars :=
  match pLit litAsync s with
  | none => none
  | some s1 =>
    let r := pRun (fun c => c != ')') s1
    if r.1.isEmpty then none else
    pLit litPromise r.2

/-- `re.search` for the asyncHandler pattern: split the text at the end of
the first match. -/
def asyncSplit : Chars → Option (Chars × Chars)
  | [] => none
  | c :: cs =>
    match asyncMatchAt (c :: cs) with
    | some rest => some ((c :: cs).take ((c :: cs).length - rest.length), rest)
    | none => (asyncSplit cs).map fun pr => (c :: pr.1, pr.2)

def litCatchShort : Chars := "catch (error) \x7b".data

/-- Matcher for `(catch \(error\) \{)` with the duration line appended. -/
def mCatchLog (s : Chars) : Option (Chars × Nat) :=
  match pLit litCatchShort s with
  | none => none
  | some _ =>
    some (litCatchShort ++ ("\n        const duration = Date.now() - startTime;\n        ").data,
      litCatchShort.length)

/-- `add_logging_to_route` from add-logging-to-routes.py (defined by the
script but never invoked by its `main`). -/
def add_logging_to_route (route_content method endpoint : Chars)
    (integration : Option Chars) : Chars :=
  let integ : Option Chars :=
    match integration with
    | some i => some i
    | none =>
      if occursIn ("/puppetdb/").data endpoint then some ("puppetdb").data
      else if occursIn ("/puppetserver/").data endpoint then some ("puppetserver").data
      else none
  let operation :=
    method ++ ['_'] ++
      stripCh (fun c => c = '_') (replaceAll [':'] [] (replaceAll ['/'] ['_'] endpoint))
  if occursIn ("logger.info").data route_content ||
      occursIn ("logger.error").data route_content then route_content
  else
    match asyncSplit route_content with
    | none => route_content
    | some (pre, post) =>
      let li :=
        ("\n      const startTime = Date.now();\n\n      logger.info(\"").data ++
          method.map Char.toUpper ++ [' '] ++ endpoint ++
          ("\", \x7b\n        component: \"IntegrationsRouter\",").data ++
          (match integ with
           | some i => ("\n        integration: \"").data ++ i ++ ("\",").data
           | none => []) ++
          ("\n        operation: \"").data ++ operation ++
          ("\",\n      \x7d);\n      ").data
      let c1 := subLoop mCatchLog (pre ++ li ++ post)
      let c2 := replaceAll ("console.error(").data ("logger.error(").data c1
      let c3 := replaceAll ("console.warn(").data ("logger.warn(").data c2
      replaceAll ("console.log(").data ("logger.info(").data c3

/-- Method alternation of the route-header pattern, with the capture. -/
def pMethodCap (s : Chars) : Option (Chars × Chars) :=
  match pLit (litMGet ++ ['(']) s with
  | some r => some (litMGet, r)
  | none =>
    match pLit (litMPost ++ ['(']) s with
    | some r => some (litMPost, r)
    | none => (pLit (litMDelete ++ ['(']) s).map fun r => (litMDelete, r)

/-- Matcher for `router\.(get|post|delete)\(\s*"([^"]+)"`. -/
def mRouteHdr (s : Chars) : Option ((Chars × Chars) × Nat) :=
  match pLit litRouterDot s with
  | none => none
  | some s1 =>
    match pMethodCap s1 with
    | none => none
    | some (m, s2) =>
      let rw := pRun pyWs s2
      match rw.2 with
      | '"' :: s4 =>
        let rg := pRun (fun c => c != '"') s4
        if rg.1.isEmpty then none else
        match rg.2 with
        | '"' :: s6 => some ((m, rg.1), s.length - s6.length)
        | _ => none
      | _ => none

/-- `re.finditer`: all leftmost non-overlapping matches, in order. -/
def findAllF (m : Chars → Option ((Chars × Chars) × Nat)) :
    Nat → Chars → List (Chars × Chars)
  | 0, _ => []
  | _ + 1, [] => []
  | fuel + 1, c :: cs =>
    match m (c :: cs) with
    | some (a, n) => a :: findAllF m fuel ((c :: cs).drop (max n 1))
    | none => findAllF m fuel cs

def findAll (m : Chars → Option ((Chars × Chars) × Nat)) (s : Chars) :
    List (Chars × Chars) :=
  findAllF m s.length s

def integrationsPath : String := "backend/src/routes/integrations.ts"

def lookupFile (fs : List (String × Chars)) (p : String) : Option Chars :=
  (fs.find? fun f => f.1 = p).map fun f => f.2

/-- The filesystem effect of add-logging-to-routes.py's `main`: the target
file is read (or the run exits on a missing file) and the route headers are
scanned for the report; no transformation is invoked and nothing is written.
The second component is the number of routes found, as reported. -/
def add_logging_to_routes_main (fs : List (String × Chars)) :
    List (String × Chars) × Nat :=
  match lookupFile fs integrationsPath with
  | none => (fs, 0)
  | some content => (fs, (findAll mRouteHdr content).length)

/-! # Statement families and concrete inputs used by the claims -/

/-- All characters are ASCII digits (`\d`). -/
abbrev digitsOnly (l : Chars) : Prop := ∀ c ∈ l, c.isDigit = true

/-- No brace characters at all. -/
abbrev braceFree (l : Chars) : Prop := ∀ c ∈ l, c ≠ '\x7b' ∧ c ≠ '\x7d'

/-- A canonical flat error-response statement
`res.status(N).json({ error: {B} });`. -/
def stmtFlat (N B : Chars) : Chars :=
  litRes ++ (N ++ (litJsonOpen ++ (' ' ::
    (litErrorSp ++ (B ++ ('\x7d' :: (' ' :: litCloseSemi)))))))

/-- A canonical error-response statement with an arbitrary payload body
`res.status(N).json({ error: { body } });` for the depth-aware matcher. -/
def stmtWith (N body : Chars) : Chars :=
  litRes ++ (N ++ (litJsonOpen ++ (' ' :: (litErrColon ++ (' ' ::
    ('\x7b' :: (body ++ ('\x7d' :: (' ' :: litCloseSemi)))))))))

/-- Flat-body instance `res.status(N).json({ error: { B } });`. -/
def stmtNested (N B : Chars) : Chars := stmtWith N ([' '] ++ B ++ [' '])

/-- One-nested-literal instance
`res.status(N).json({ error: { X{Y}Z } });`. -/
def stmtDeep (N X Y Z : Chars) : Chars :=
  stmtWith N ([' '] ++ X ++ '\x7b' :: (Y ++ '\x7d' :: (Z ++ [' '])))

/-- A failure-payload response whose error body contains a nested object
literal of depth 2 (`{ b: { c: 1 } }` inside `a:`). -/
def deepStmt : Chars :=
  "res.status(500).json(\x7b error: \x7b a: \x7b b: \x7b c: 1 \x7d \x7d \x7d \x7d);".data

/-- A canonical routes file for the import-management step: the obsolete
helper sits first in the import list, followed by a comma. -/
def fileC3 : Chars :=
  "import \x7b handleExpertModeResponse, foo \x7d from \"./utils\";\nconst x = 1;\n".data

/-- A file whose only import is the obsolete helper (no trailing comma). -/
def soleHelperFile : Chars :=
  "import \x7b handleExpertModeResponse \x7d from \"./utils\";\n".data

/-- A POST handler on a path whose only table entry is for GET. -/
def postMetricsHandler : Chars :=
  "router.post(\"/metrics\", h, OPERATION_PLACEHOLDER);".data

/-- A GET handler on the same path (the table's entry). -/
def getMetricsHandler : Chars :=
  "router.get(\"/metrics\", h, OPERATION_PLACEHOLDER);".data

def opMetricsName : Chars := "GET /api/integrations/puppetserver/metrics".data

/-- An early-return guard followed by a response emission, matched by the
outer pattern of `add_debug_to_early_returns`. -/
def earlyGuardStmt : Chars :=
  "if (!puppetserverService) \x7bx logger.warn y\x7d res.status(503).json(\x7b e \x7d);".data

def earlyGuardG1 : Chars :=
  "if (!puppetserverService) \x7bx logger.warn y\x7d".data

def earlyGuardG2 : Chars :=
  "res.status(503).json(\x7b e \x7d);".data

def litAddMeta : Chars := "addMetadata".data

def plainText : Chars := "hello".data

/-! # Parser lemmas -/

theorem pLit_sound : ∀ (L s r : Chars), pLit L s = some r → s = L ++ r := by
  intro L
  induction L with
  | nil => intro s r h; simp [pLit] at h; simp [h]
  | cons l ls ih =>
    intro s r h
    cases s with
    | nil => simp [pLit] at h
    | cons c cs =>
      simp only [pLit] at h
      split at h
      · next hc => subst hc; have := ih cs r h; simp [this]
      · exact absurd h (by simp)

theorem pLit_append : ∀ (L r : Chars), pLit L (L ++ r) = some r := by
  intro L
  induction L with
  | nil => intro r; simp [pLit]
  | cons l ls ih => intro r; simp [pLit, ih]

theorem pRun_eq (p : Char → Bool) : ∀ s : Chars, (pRun p s).1 ++ (pRun p s).2 = s := by
  intro s
  induction s with
  | nil => simp [pRun]
  | cons c cs ih =>
    simp only [pRun]
    split
    · simpa using ih
    · simp

theorem pRun_all (p : Char → Bool) : ∀ s : Chars, ∀ c ∈ (pRun p s).1, p c = true := by
  intro s
  induction s with
  | nil => simp [pRun]
  | cons c cs ih =>
    simp only [pRun]
    split
    · next hc =>
      intro d hd
      simp only [List.mem_cons] at hd
      rcases hd with rfl | hd
      · exact hc
      · exact ih d hd
    · simp

theorem pRun_append_cons (p : Char → Bool) (a : Chars) (ch : Char) (rest : Chars)
    (ha : ∀ c ∈ a, p c = true) (hch : p ch = false) :
    pRun p (a ++ ch :: rest) = (a, ch :: rest) := by
  induction a with
  | nil => simp [pRun, hch]
  | cons c cs ih =>
    have hc : p c = true := ha c (by simp)
    have ih' := ih (fun d hd => ha d (by simp [hd]))
    simp only [List.cons_append, pRun, hc, if_true]
    rw [show cs.append (ch :: rest) = cs ++ ch :: rest from rfl, ih']

theorem startsWithL_self_append : ∀ (n t : Chars), startsWithL n (n ++ t) = true := by
  intro n
  induction n with
  | nil => intro t; simp [startsWithL]
  | cons c cs ih => intro t; simp [startsWithL, ih]

theorem startsWithL_append_right : ∀ (n s t : Chars),
    startsWithL n s = true → startsWithL n (s ++ t) = true := by
  intro n
  induction n with
  | nil => intro s t _; simp [startsWithL]
  | cons c cs ih =>
    intro s t h
    cases s with
    | nil => simp [startsWithL] at h
    | cons b bs =>
      simp only [startsWithL] at h
      split at h
      · next hb =>
        subst hb
        simpa [startsWithL] using ih bs t h
      · exact absurd h (by simp)

theorem occursIn_append_right : ∀ (n s t : Chars),
    occursIn n t = true → occursIn n (s ++ t) = true := by
  intro n s t h
  induction s with
  | nil => simpa using h
  | cons c cs ih => simp [occursIn, ih]

theorem occursIn_nil_needle : ∀ t : Chars, occursIn [] t = true := by
  intro t
  cases t with
  | nil => rfl
  | cons c cs => simp [occursIn, startsWithL]

theorem occursIn_append_left : ∀ (n s t : Chars),
    occursIn n s = true → occursIn n (s ++ t) = true := by
  intro n s
  induction s with
  | nil =>
    intro t h
    simp only [occursIn, List.isEmpty_iff] at h
    subst h
    exact occursIn_nil_needle t
  | cons c cs ih =>
    intro t h
    simp only [occursIn, Bool.or_eq_true] at h ⊢
    rcases h with h | h
    · exact Or.inl (by simpa using startsWithL_append_right n (c :: cs) t h)
    · exact Or.inr (ih t h)

theorem occursIn_self_append (n v : Chars) : occursIn n (n ++ v) = true := by
  cases n with
  | nil => exact occursIn_nil_needle v
  | cons c cs =>
    have h := startsWithL_self_append (c :: cs) v
    simp only [List.cons_append] at h
    simp [occursIn, h]

theorem occursIn_parts (n u v : Chars) : occursIn n (u ++ (n ++ v)) = true :=
  occursIn_append_right n u (n ++ v) (occursIn_self_append n v)

/-! # Substitution-driver lemmas -/

theorem subLoopF_nil (m : Chars → Option (Chars × Nat)) (f : Nat) :
    subLoopF m f [] = [] := by
  cases f <;> rfl

theorem subLoopF_no_match (m : Chars → Option (Chars × Nat)) :
    ∀ (f : Nat) (s : Chars), s.length ≤ f → anyMatch m s = false →
      subLoopF m f s = s := by
  intro f
  induction f with
  | zero =>
    intro s hl _
    cases s with
    | nil => rfl
    | cons c cs => simp at hl
  | succ f ih =>
    intro s hl hm
    cases s with
    | nil => rfl
    | cons c cs =>
      rw [anyMatch] at hm
      have h1 : m (c :: cs) = none := by
        cases h : m (c :: cs) with
        | none => rfl
        | some r => rw [h] at hm; simp at hm
      rw [h1] at hm
      simp only [Option.isSome_none, Bool.false_or] at hm
      simp only [subLoopF, h1]
      rw [ih cs (by simpa using Nat.le_of_succ_le_succ hl) hm]

theorem subLoop_no_match (m : Chars → Option (Chars × Nat)) (s : Chars)
    (hm : anyMatch m s = false) : subLoop m s = s :=
  subLoopF_no_match m s.length s (Nat.le_refl _) hm

theorem subLoop_full_match (m : Chars → Option (Chars × Nat)) (s r : Chars)
    (h : m s = some (r, s.length)) (hs : s ≠ []) : subLoop m s = r := by
  cases s with
  | nil => exact absurd rfl hs
  | cons c cs =>
    simp only [subLoop, List.length_cons, subLoopF, h]
    have hmax : max (cs.length + 1) 1 = cs.length + 1 := by omega
    rw [hmax]
    have hdrop : (c :: cs).drop (cs.length + 1) = [] := by
      simp [List.drop_length]
    rw [hdrop, subLoopF_nil]
    simp

/-! # Decomposition lemmas: gaps, spans and replacements -/

theorem weave_cons_gap (c : Char) (g : Chars) (gs ps : List Chars) :
    weave ((c :: g) :: gs) ps = c :: weave (g :: gs) ps := by
  cases ps <;> simp [weave]

theorem subPartsF_gaps_ne (m : Chars → Option (Chars × Nat)) :
    ∀ (f : Nat) (s : Chars), (subPartsF m f s).1 ≠ [] := by
  intro f
  induction f with
  | zero => intro s; simp [subPartsF]
  | succ f ih =>
    intro s
    cases s with
    | nil => simp [subPartsF]
    | cons c cs =>
      simp only [subPartsF]
      cases h : m (c :: cs) with
      | some r => simp
      | none =>
        rcases hp : subPartsF m f cs with ⟨gs, sps, rps⟩
        cases gs with
        | nil => exact absurd (by rw [hp]) (ih cs)
        | cons g gs' => simp

theorem subPartsF_weave_input (m : Chars → Option (Chars × Nat)) :
    ∀ (f : Nat) (s : Chars),
      weave (subPartsF m f s).1 (subPartsF m f s).2.1 = s := by
  intro f
  induction f with
  | zero => intro s; simp [subPartsF, weave]
  | succ f ih =>
    intro s
    cases s with
    | nil => simp [subPartsF, weave]
    | cons c cs =>
      simp only [subPartsF]
      cases h : m (c :: cs) with
      | some r =>
        simp only [weave]
        rw [List.nil_append, ih]
        exact List.take_append_drop _ _
      | none =>
        rcases hp : subPartsF m f cs with ⟨gs, sps, rps⟩
        cases gs with
        | nil => exact absurd (by rw [hp]) (subPartsF_gaps_ne m f cs)
        | cons g gs' =>
          have hin := ih cs
          rw [hp] at hin
          simp only []
          rw [weave_cons_gap]
          simp only at hin
          rw [hin]

theorem subPartsF_weave_output (m : Chars → Option (Chars × Nat)) :
    ∀ (f : Nat) (s : Chars), s.length ≤ f →
      subLoopF m f s = weave (subPartsF m f s).1 (subPartsF m f s).2.2 := by
  intro f
  induction f with
  | zero =>
    intro s hl
    cases s with
    | nil => simp [subPartsF, subLoopF, weave]
    | cons c cs => simp at hl
  | succ f ih =>
    intro s hl
    cases s with
    | nil => simp [subPartsF, subLoopF, weave]
    | cons c cs =>
      simp only [subPartsF, subLoopF]
      cases h : m (c :: cs) with
      | some r =>
        simp only [weave, List.nil_append]
        have hlen : ((c :: cs).drop (max r.2 1)).length ≤ f := by
          simp only [List.length_drop, List.length_cons]
          simp only [List.length_cons] at hl
          omega
        rw [ih _ hlen]
      | none =>
        rcases hp : subPartsF m f cs with ⟨gs, sps, rps⟩
        cases gs with
        | nil => exact absurd (by rw [hp]) (subPartsF_gaps_ne m f cs)
        | cons g gs' =>
          have hout := ih cs (by simp only [List.length_cons] at hl; omega)
          rw [hp] at hout
          simp only [] at hout ⊢
          rw [weave_cons_gap, ← hout]

theorem subLoop_weave (m : Chars → Option (Chars × Nat)) (s : Chars) :
    weave (subParts m s).1 (subParts m s).2.1 = s ∧
      subLoop m s = weave (subParts m s).1 (subParts m s).2.2 :=
  ⟨subPartsF_weave_input m s.length s,
   subPartsF_weave_output m s.length s (Nat.le_refl _)⟩

/-! # scanBody lemmas -/

theorem litCloseSemi_eq : litCloseSemi = ['\x7d', ')', ';'] := by decide

theorem scanBody_skip : ∀ (b : Chars), braceFree b → ∀ (acc : Chars) (opens : Nat) (t : Chars),
    scanBody acc opens (b ++ t) = scanBody (b.reverse ++ acc) opens t := by
  intro b hb
  induction b with
  | nil => intro acc opens t; simp
  | cons c cs ih =>
    intro acc opens t
    have hc := hb c (by simp)
    have hcs : braceFree cs := fun d hd => hb d (by simp [hd])
    simp only [List.cons_append, scanBody, if_neg hc.2, if_neg hc.1]
    rw [List.append_eq, ih hcs (c :: acc) opens t]
    simp

theorem pTail_ws (w rest : Chars) (hw : ∀ c ∈ w, pyWs c = true) :
    pTail ('\x7d' :: (w ++ '\x7d' :: ')' :: ';' :: rest)) = some rest := by
  simp only [pTail]
  rw [pRun_append_cons pyWs w '\x7d' (')' :: ';' :: rest) hw (by decide)]
  rw [litCloseSemi_eq]
  simp [pLit]

theorem pTail_fail_inner : ∀ (z : Chars), braceFree z → ∀ rest : Chars,
    pTail ('\x7d' :: (z ++ '\x7d' :: ' ' :: '\x7d' :: ')' :: ';' :: rest)) = none := by
  intro z hz
  induction z with
  | nil =>
    intro rest
    simp only [List.nil_append, pTail]
    rw [show pRun pyWs ('\x7d' :: ' ' :: '\x7d' :: ')' :: ';' :: rest) =
        ([], '\x7d' :: ' ' :: '\x7d' :: ')' :: ';' :: rest) from by
      simp [pRun, show pyWs '\x7d' = false from by decide]]
    rw [litCloseSemi_eq]
    simp [pLit]
  | cons c cs ih =>
    intro rest
    have hc := hz c (by simp)
    have hcs : braceFree cs := fun d hd => hz d (by simp [hd])
    simp only [pTail] at ih ⊢
    by_cases hw : pyWs c = true
    · simp only [List.cons_append, pRun, hw, if_true]
      exact ih hcs rest
    · simp only [List.cons_append, pRun, hw]
      simp only [Bool.false_eq_true, if_false]
      cases hL : pLit litCloseSemi (c :: (cs ++ '\x7d' :: ' ' :: '\x7d' :: ')' :: ';' :: rest)) with
      | none => rfl
      | some r =>
        rw [litCloseSemi_eq] at hL
        simp only [pLit] at hL
        rw [if_neg hc.2] at hL
        exact absurd hL (by simp)

theorem scanBody_flat (b : Chars) (hb : braceFree b) (acc : Chars) (opens : Nat)
    (rest : Chars) (hne : acc.reverse ++ b ≠ []) :
    scanBody acc opens (b ++ '\x7d' :: ' ' :: '\x7d' :: ')' :: ';' :: rest) =
      some (acc.reverse ++ b, rest) := by
  rw [scanBody_skip b hb acc opens]
  have hne2 : (b.reverse ++ acc).isEmpty = false := by
    cases hacc : acc with
    | cons x xs => simp
    | nil =>
      cases hb2 : b with
      | nil => exact absurd (by simp [hacc, hb2]) hne
      | cons x xs => simp
  have hpt := pTail_ws [' '] rest (by decide)
  simp only [List.cons_append, List.nil_append] at hpt
  rw [scanBody]
  simp only [eq_self_iff_true, if_true, hne2, Bool.false_eq_true, if_false, hpt]
  rw [List.reverse_append, List.reverse_reverse]

theorem scanBody_oneGroup (x y z : Chars) (hx : braceFree x) (hy : braceFree y)
    (hz : braceFree z) (acc : Chars) (opens : Nat) (rest : Chars)
    (hne : acc.reverse ++ x ≠ []) :
    scanBody acc opens
        (x ++ '\x7b' :: (y ++ '\x7d' :: (z ++ '\x7d' :: ' ' :: '\x7d' :: ')' :: ';' :: rest))) =
      some (acc.reverse ++ x ++ '\x7b' :: (y ++ '\x7d' :: z), rest) := by
  rw [scanBody_skip x hx acc opens]
  have hne3 : (x.reverse ++ acc).isEmpty = false := by
    cases hacc : acc with
    | cons a as => simp
    | nil =>
      cases hx2 : x with
      | nil => exact absurd (by simp [hacc, hx2]) hne
      | cons a as => simp
  rw [scanBody]
  rw [if_neg (by decide : ¬('\x7b' : Char) = '\x7d')]
  rw [if_pos (rfl : ('\x7b' : Char) = '\x7b')]
  simp only [hne3, Bool.false_eq_true, if_false]
  rw [scanBody_skip y hy ('\x7b' :: (x.reverse ++ acc)) (opens + 1)]
  have hne4 : (y.reverse ++ '\x7b' :: (x.reverse ++ acc)).isEmpty = false := by
    cases hy2 : y.reverse <;> simp
  have hfail := pTail_fail_inner z hz rest
  rw [scanBody]
  rw [if_pos (rfl : ('\x7d' : Char) = '\x7d')]
  simp only [hne4, Bool.false_eq_true, if_false, hfail]
  rw [if_pos (Nat.succ_pos opens)]
  rw [scanBody_flat z hz ('\x7d' :: (y.reverse ++ '\x7b' :: (x.reverse ++ acc))) 0 rest
    (by simp)]
  simp [List.reverse_append, List.append_assoc]

theorem litRes_ne : litRes ≠ [] := by decide

theorem mErrFlat_stmt (N B : Chars) (hN : digitsOnly N) (hNne : N ≠ [])
    (hB : braceFree B) (hBne : B ≠ []) :
    mErrFlat (stmtFlat N B) = some (replErrFlat N B, (stmtFlat N B).length) := by
  have hJ : litJsonOpen = ')' :: ".json(\x7b".data := by decide
  unfold mErrFlat
  rw [show stmtFlat N B = litRes ++ (N ++ (litJsonOpen ++ (' ' ::
    (litErrorSp ++ (B ++ ('\x7d' :: (' ' :: litCloseSemi))))))) from rfl]
  rw [pLit_append]
  rw [hJ]
  simp only [List.cons_append]
  rw [pRun_append_cons Char.isDigit N ')' _ hN (by decide)]
  have hNe : N.isEmpty = false := by
    cases N with
    | nil => exact absurd rfl hNne
    | cons a as => rfl
  dsimp only
  simp only [hNe, Bool.false_eq_true, if_false, List.nil_append]
  simp only [pLit, eq_self_iff_true, if_true]
  simp only [List.append_eq, List.nil_append]
  rw [pRun_append_cons (fun c => c != '\x7d') B '\x7d' (' ' :: litCloseSemi)
    (fun c hc => by simp [(hB c hc).2]) (by decide)]
  have hBe : B.isEmpty = false := by
    cases B with
    | nil => exact absurd rfl hBne
    | cons a as => rfl
  dsimp only
  simp only [hBe, Bool.false_eq_true, if_false]
  rw [litCloseSemi_eq]
  rw [show pRun pyWs (' ' :: '\x7d' :: ')' :: ';' :: ([] : Chars)) =
    ([' '], '\x7d' :: ')' :: ';' :: []) from by decide]
  rw [show pLit ['\x7d', ')', ';'] ([' '], ['\x7d', ')', ';']).2 = some [] from by decide]
  simp

theorem mErrNested_stmtWith (N body out : Chars) (hN : digitsOnly N) (hNne : N ≠ [])
    (hsc : scanBody [] 0 (body ++ '\x7d' :: ' ' :: '\x7d' :: ')' :: ';' :: []) =
      some (out, [])) :
    mErrNested (stmtWith N body) = some (replErrNested N out, (stmtWith N body).length) := by
  have hJ : litJsonOpen = ')' :: ".json(\x7b".data := by decide
  unfold mErrNested
  rw [show stmtWith N body = litRes ++ (N ++ (litJsonOpen ++ (' ' :: (litErrColon ++ (' ' ::
    ('\x7b' :: (body ++ ('\x7d' :: (' ' :: litCloseSemi))))))))) from rfl]
  rw [pLit_append]
  rw [hJ]
  simp only [List.cons_append]
  rw [pRun_append_cons Char.isDigit N ')' _ hN (by decide)]
  have hNe : N.isEmpty = false := by
    cases N with
    | nil => exact absurd rfl hNne
    | cons a as => rfl
  dsimp only
  simp only [hNe, Bool.false_eq_true, if_false, List.nil_append]
  simp only [pLit, eq_self_iff_true, if_true]
  simp only [List.append_eq, List.nil_append]
  rw [show ∀ X : Chars, pRun pyWs (' ' :: '\x7b' :: X) = ([' '], '\x7b' :: X) from
    fun X => by simp [pRun, show pyWs ' ' = true from by decide,
      show pyWs '\x7b' = false from by decide]]
  dsimp only
  rw [litCloseSemi_eq]
  split
  · next s7 heq =>
    obtain rfl : body ++ ['\x7d', ' ', '\x7d', ')', ';'] = s7 := by
      injection heq
    rw [hsc]
    simp
  · next x hx =>
    exact absurd rfl (hx (body ++ ['\x7d', ' ', '\x7d', ')', ';']))

theorem stmtWith_ne (N body : Chars) : stmtWith N body ≠ [] := by
  simp only [stmtWith]
  intro h
  have := congrArg List.length h
  simp [litRes] at this

theorem stmtFlat_ne (N B : Chars) : stmtFlat N B ≠ [] := by
  simp only [stmtFlat]
  intro h
  have := congrArg List.length h
  simp [litRes] at this

theorem fix_error_responses_stmtNested (N B : Chars) (hN : digitsOnly N)
    (hNne : N ≠ []) (hB : braceFree B) :
    fix_error_responses (stmtNested N B) = replErrNested N ([' '] ++ B ++ [' ']) := by
  have hbody : braceFree ([' '] ++ B ++ [' ']) := by
    intro c hc
    simp only [List.mem_append, List.mem_singleton, List.mem_cons] at hc
    rcases hc with (hc | hc) | hc
    · simp at hc; subst hc; exact ⟨by decide, by decide⟩
    · exact hB c hc
    · simp at hc; subst hc; exact ⟨by decide, by decide⟩
  have hsc : scanBody [] 0 (([' '] ++ B ++ [' ']) ++ ['\x7d', ' ', '\x7d', ')', ';']) =
      some ([' '] ++ B ++ [' '], []) := by
    have h := scanBody_flat ([' '] ++ B ++ [' ']) hbody [] 0 [] (by simp)
    simpa using h
  have hm := mErrNested_stmtWith N ([' '] ++ B ++ [' ']) ([' '] ++ B ++ [' ']) hN hNne hsc
  exact subLoop_full_match mErrNested _ _ hm (stmtWith_ne N _)

theorem fix_error_responses_stmtDeep (N X Y Z : Chars) (hN : digitsOnly N)
    (hNne : N ≠ []) (hX : braceFree X) (hY : braceFree Y) (hZ : braceFree Z) :
    fix_error_responses (stmtDeep N X Y Z) =
      replErrNested N ([' '] ++ X ++ '\x7b' :: (Y ++ '\x7d' :: (Z ++ [' ']))) := by
  have hx' : braceFree (' ' :: X) := by
    intro c hc
    simp only [List.mem_cons] at hc
    rcases hc with rfl | hc
    · exact ⟨by decide, by decide⟩
    · exact hX c hc
  have hz' : braceFree (Z ++ [' ']) := by
    intro c hc
    simp only [List.mem_append, List.mem_singleton] at hc
    rcases hc with hc | hc
    · exact hZ c hc
    · subst hc; exact ⟨by decide, by decide⟩
  have hsc : scanBody [] 0
      (([' '] ++ X ++ '\x7b' :: (Y ++ '\x7d' :: (Z ++ [' ']))) ++ ['\x7d', ' ', '\x7d', ')', ';']) =
      some ([' '] ++ X ++ '\x7b' :: (Y ++ '\x7d' :: (Z ++ [' '])), []) := by
    have h := scanBody_oneGroup (' ' :: X) Y (Z ++ [' ']) hx' hY hz' [] 0 [] (by simp)
    simpa [List.append_assoc] using h
  have hm := mErrNested_stmtWith N _ _ hN hNne hsc
  exact subLoop_full_match mErrNested _ _ hm (stmtWith_ne N _)

theorem add_debug_stmtFlat (N B : Chars) (hN : digitsOnly N) (hNne : N ≠ [])
    (hB : braceFree B) (hBne : B ≠ []) :
    add_debug_to_error_responses (stmtFlat N B) = replErrFlat N B :=
  subLoop_full_match mErrFlat _ _ (mErrFlat_stmt N B hN hNne hB hBne) (stmtFlat_ne N B)

/-! # Operation-name resolution lemmas -/

theorem pMethod_sound (s1 s2 : Chars) (h : pMethod s1 = some s2) :
    ∃ mlit, s1 = mlit ++ s2 := by
  unfold pMethod at h
  cases hg : pLit (litMGet ++ ['(']) s1 with
  | some r =>
    rw [hg] at h
    exact ⟨litMGet ++ ['('], by rw [pLit_sound _ _ _ hg]; injection h with h2; rw [h2]⟩
  | none =>
    rw [hg] at h
    cases hp : pLit (litMPost ++ ['(']) s1 with
    | some r =>
      rw [hp] at h
      exact ⟨litMPost ++ ['('], by rw [pLit_sound _ _ _ hp]; injection h with h2; rw [h2]⟩
    | none =>
      rw [hp] at h
      exact ⟨litMDelete ++ ['('], by rw [pLit_sound _ _ _ h]⟩

theorem mRoute_some_occurs (e : Chars × Chars) (s : Chars) (r : Chars × Nat)
    (h : mRoute e s = some r) : occursIn e.1 s = true := by
  unfold mRoute at h
  cases h1 : pLit litRouterDot s with
  | none => rw [h1] at h; simp at h
  | some s1 =>
    rw [h1] at h
    dsimp only at h
    cases h2 : pMethod s1 with
    | none => rw [h2] at h; simp at h
    | some s2 =>
      rw [h2] at h
      dsimp only at h
      cases h3 : pLit e.1 (pRun pyWs s2).2 with
      | none => rw [h3] at h; simp at h
      | some s4 =>
        obtain ⟨mlit, hm⟩ := pMethod_sound s1 s2 h2
        have hs2 : s2 = (pRun pyWs s2).1 ++ (e.1 ++ s4) := by
          rw [← pLit_sound _ _ _ h3]
          exact (pRun_eq pyWs s2).symm
        rw [pLit_sound _ _ _ h1, hm, hs2]
        have := occursIn_parts e.1 (litRouterDot ++ (mlit ++ (pRun pyWs s2).1)) s4
        simpa [List.append_assoc] using this

theorem anyMatch_mRoute_false (e : Chars × Chars) (T : Chars)
    (h : occursIn e.1 T = false) : anyMatch (mRoute e) T = false := by
  induction T with
  | nil => rfl
  | cons c cs ih =>
    rw [anyMatch]
    have hcs : occursIn e.1 cs = false := by
      rw [occursIn] at h
      rcases Bool.or_eq_false_iff.mp h with ⟨_, h2⟩
      exact h2
    have hm : mRoute e (c :: cs) = none := by
      cases hm2 : mRoute e (c :: cs) with
      | none => rfl
      | some r =>
        rw [mRoute_some_occurs e _ r hm2] at h
        exact absurd h (by simp)
    rw [hm, ih hcs]
    rfl

theorem fix_operation_names_id (T : Chars)
    (h : ∀ e ∈ routes, occursIn e.1 T = false) : fix_operation_names T = T := by
  unfold fix_operation_names
  have main : ∀ (rs : List (Chars × Chars)), (∀ e ∈ rs, occursIn e.1 T = false) →
      rs.foldl (fun acc e => subLoop (mRoute e) acc) T = T := by
    intro rs
    induction rs with
    | nil => intro _; rfl
    | cons r rs' ih =>
      intro hh
      simp only [List.foldl]
      rw [subLoop_no_match _ _ (anyMatch_mRoute_false r T (hh r (by simp)))]
      exact ih (fun e he => hh e (by simp [he]))
  exact main routes h

/-! # Early-return fall-through lemmas -/

theorem innerSearch_cons (c : Char) (cs : Chars) :
    innerSearch (c :: cs) =
      match innerMatchAt (c :: cs) with
      | some r => some r
      | none => innerSearch cs := rfl

theorem parseRes_sound (s sp rest : Chars) (h : parseRes s = some (sp, rest)) :
    ∃ d e, sp = litRes ++ d ++ litJsonOpen ++ e ++ litCloseSemi ∧ d ≠ [] ∧
      digitsOnly d ∧ e ≠ [] ∧ (∀ c ∈ e, (c != '\x7d') = true) := by
  unfold parseRes at h
  cases h1 : pLit litRes s with
  | none => rw [h1] at h; simp at h
  | some s1 =>
    rw [h1] at h
    dsimp only at h
    by_cases hd : (pRun Char.isDigit s1).1.isEmpty = true
    · rw [if_pos hd] at h; simp at h
    · rw [if_neg hd] at h
      cases h2 : pLit litJsonOpen (pRun Char.isDigit s1).2 with
      | none => rw [h2] at h; simp at h
      | some s3 =>
        rw [h2] at h
        dsimp only at h
        by_cases he : (pRun (fun c => c != '\x7d') s3).1.isEmpty = true
        · rw [if_pos he] at h; simp at h
        · rw [if_neg he] at h
          cases h3 : pLit litCloseSemi (pRun (fun c => c != '\x7d') s3).2 with
          | none => rw [h3] at h; simp at h
          | some s5 =>
            rw [h3] at h
            refine ⟨(pRun Char.isDigit s1).1, (pRun (fun c => c != '\x7d') s3).1,
              ?_, ?_, ?_, ?_, ?_⟩
            · injection h with hpair
              injection hpair with hsp hrest
              exact hsp.symm
            · intro hn; rw [hn] at hd; exact hd rfl
            · exact pRun_all Char.isDigit s1
            · intro hn; rw [hn] at he; exact he rfl
            · exact pRun_all _ s3

theorem innerMatchAt_reconstruct (d e : Chars) (hd : digitsOnly d) (hdne : d ≠ [])
    (hene : e ≠ []) (he : ∀ c ∈ e, (c != '\x7d') = true) :
    innerMatchAt (litRes ++ d ++ litJsonOpen ++ e ++ litCloseSemi) = some (d, e) := by
  have hJ : litJsonOpen = ')' :: ".json(\x7b".data := by decide
  unfold innerMatchAt
  rw [show litRes ++ d ++ litJsonOpen ++ e ++ litCloseSemi =
    litRes ++ (d ++ (litJsonOpen ++ (e ++ litCloseSemi))) from by simp [List.append_assoc]]
  rw [pLit_append, hJ]
  simp only [List.cons_append]
  rw [pRun_append_cons Char.isDigit d ')' _ hd (by decide)]
  have hde : d.isEmpty = false := by
    cases d with
    | nil => exact absurd rfl hdne
    | cons a as => rfl
  dsimp only
  simp only [hde, Bool.false_eq_true, if_false, List.nil_append]
  simp only [pLit, eq_self_iff_true, if_true, List.append_eq, List.nil_append]
  rw [litCloseSemi_eq]
  rw [show (e ++ ['\x7d', ')', ';'] : Chars) = e ++ '\x7d' :: [')', ';'] from rfl]
  rw [pRun_append_cons (fun c => c != '\x7d') e '\x7d' [')', ';'] he (by decide)]
  have hee : e.isEmpty = false := by
    cases e with
    | nil => exact absurd rfl hene
    | cons a as => rfl
  dsimp only
  simp only [hee, Bool.false_eq_true, if_false]
  rw [show pLit ['\x7d', ')', ';'] ('\x7d' :: [')', ';']) = some [] from by decide]

theorem earlyMatchAt_inner_some (s g1 g2 : Chars) (len : Nat)
    (h : earlyMatchAt s = some (g1, g2, len)) : innerSearch g2 ≠ none := by
  unfold earlyMatchAt at h
  cases h1 : pLit litIfNot s with
  | none => rw [h1] at h; simp at h
  | some s1 =>
    rw [h1] at h
    dsimp only at h
    by_cases hw : hasPaddedWarn (pRun (fun c => c != '\x7d') s1).1 = true
    · rw [if_pos hw] at h
      cases h2 : (pRun (fun c => c != '\x7d') s1).2 with
      | nil => rw [h2] at h; simp at h
      | cons c2 cs2 =>
        rw [h2] at h
        split at h
        next x s7 heq =>
          injection heq with ha hb
          rw [← hb] at h
          cases h3 : parseRes (pRun pyWs cs2).2 with
          | none => rw [h3] at h; simp at h
          | some pr =>
            rw [h3] at h
            dsimp only at h
            have hg2 : g2 = pr.1 := by
              cases pr
              injection h with hpair
              injection hpair with _ htail
              injection htail with hg _
              exact hg.symm
            obtain ⟨d, e, hshape, hdne, hdd, hene, hee⟩ :=
              parseRes_sound _ _ _ (show parseRes (pRun pyWs cs2).2 = some (pr.1, pr.2) from by
                rw [h3])
            have hr : litRes = 'r' :: "es.status(".data := by decide
            have hg2c : g2 = 'r' :: ("es.status(".data ++ (d ++ litJsonOpen ++ e ++ litCloseSemi)) := by
              rw [hg2, hshape, hr]
              simp [List.append_assoc]
            have hinner : innerMatchAt (litRes ++ d ++ litJsonOpen ++ e ++ litCloseSemi) =
                some (d, e) := innerMatchAt_reconstruct d e hdd hdne hene hee
            rw [hg2c, innerSearch_cons]
            rw [show ('r' :: ("es.status(".data ++ (d ++ litJsonOpen ++ e ++ litCloseSemi))) =
              litRes ++ d ++ litJsonOpen ++ e ++ litCloseSemi from by
                rw [hr]; simp [List.append_assoc]]
            rw [hinner]
            simp
        next xx hxx => simp at h
    · rw [if_neg hw] at h
      simp at h

/-! # Claim theorems -/

/-- C1: the claim says every pass is idempotent and in particular the
catch-block instrumentation pass never duplicates its insertion on a second
run.  Evaluating the code at the failing input shows the opposite: the
pattern of `add_debug_to_catch_block` still matches its own output, so the
second application inserts the debug-recording block again. -/
theorem c1_catch_not_idempotent :
    add_debug_to_catch_block (add_debug_to_catch_block catchSnippet) ≠
      add_debug_to_catch_block catchSnippet := by decide

/-- C2 counterexample: a failure-payload response whose error body contains
a nested object literal of depth 2 is not matched at all by either
error-response matcher — both passes return the statement unchanged, so the
claim that the matcher matches such statements fails (nothing is truncated
either; the matcher simply never fires). -/
theorem c2_deep_nesting_unmatched :
    fix_error_responses deepStmt = deepStmt ∧
      add_debug_to_error_responses deepStmt = deepStmt := by decide

/-- C2 (amended): the depth-aware matcher of `fix_error_responses` matches a
failure-payload response whose error body contains one inner object literal
with brace-free contents, and captures the whole payload body — including
the text after the inner literal's closing brace — rather than a truncated
prefix; deeper nesting is not matched at all and the statement passes
through unchanged. -/
theorem c2_nested_capture (N X Y Z : Chars) (hN : digitsOnly N) (hNne : N ≠ [])
    (hX : braceFree X) (hY : braceFree Y) (hZ : braceFree Z) :
    fix_error_responses (stmtDeep N X Y Z) =
      replErrNested N ([' '] ++ X ++ '\x7b' :: (Y ++ '\x7d' :: (Z ++ [' ']))) :=
  fix_error_responses_stmtDeep N X Y Z hN hNne hX hY hZ

/-- C2 witness: the amended theorem applied at a concrete nested statement. -/
theorem c2_nested_capture_witness :
    (digitsOnly ("500".data) ∧ "500".data ≠ [] ∧ braceFree ("a: ".data) ∧
      braceFree (" b: 1 ".data) ∧ braceFree (", c: 2".data)) ∧
    fix_error_responses (stmtDeep ("500".data) ("a: ".data) (" b: 1 ".data) (", c: 2".data)) =
      replErrNested ("500".data)
        ([' '] ++ "a: ".data ++ '\x7b' :: (" b: 1 ".data ++ '\x7d' :: (", c: 2".data ++ [' ']))) :=
  ⟨⟨by decide, by decide, by decide, by decide, by decide⟩,
   c2_nested_capture ("500".data) ("a: ".data) (" b: 1 ".data) (", c: 2".data)
     (by decide) (by decide) (by decide) (by decide) (by decide)⟩

theorem iterN_fix (f : Chars → Chars) (y : Chars) (hf : f y = y) :
    ∀ n, iterN f n y = y := by
  intro n
  induction n with
  | zero => rfl
  | succ n ih => rw [iterN, hf]; exact ih

/-- C3 counterexample: in a file whose import list consists of the obsolete
helper alone, the helper is not followed by a comma, so the normalization
`re.sub(r'handleExpertModeResponse,\s*', '', ...)` leaves it in place: after
the import-management step the obsolete symbol is still imported, refuting
the claim that it is removed as part of normalization. -/
theorem c3_trailing_helper_kept :
    occursIn litHandle (transformExpertModeMain soleHelperFile) = true ∧
      occursIn emsImportLit (transformExpertModeMain soleHelperFile) = true := by decide

/-- C3 (amended): on the canonical routes file — one utils import, the
obsolete helper listed with a trailing comma, no `ExpertModeService` import —
any positive number of runs of the import-management step leaves exactly one
`import { ExpertModeService }` declaration: the first run inserts it once
after the utils import, and every later run finds the exact import text
present and inserts nothing.  The obsolete helper is removed only when a
comma follows it (as in this file); a comma-less occurrence is left in
place. -/
theorem c3_single_import (n : Nat) (hn : 1 ≤ n) :
    countOcc emsImportLit (iterN transformExpertModeMain n fileC3) = 1 := by
  obtain ⟨m, rfl⟩ : ∃ m, n = m + 1 := ⟨n - 1, by omega⟩
  rw [iterN]
  rw [iterN_fix transformExpertModeMain (transformExpertModeMain fileC3) (by decide) m]
  decide

/-- C3 witness: two runs of the step leave exactly one service import. -/
theorem c3_single_import_witness :
    1 ≤ 2 ∧ countOcc emsImportLit (iterN transformExpertModeMain 2 fileC3) = 1 :=
  ⟨by decide, c3_single_import 2 (by decide)⟩

/-- C4: region preservation for the two error-response passes.  For any
input, the gaps/spans/replacements decomposition of the run satisfies: the
unmatched gaps interleaved with the matched spans rebuild the input
byte-for-byte and in order, and the pass output is exactly the same gaps
interleaved with the replacement texts — so every byte outside the matched
regions is present, unchanged and in the same relative order in the
output. -/
theorem c4_region_preservation (T : Chars) :
    (weave (subParts mErrNested T).1 (subParts mErrNested T).2.1 = T ∧
      fix_error_responses T = weave (subParts mErrNested T).1 (subParts mErrNested T).2.2) ∧
    (weave (subParts mErrFlat T).1 (subParts mErrFlat T).2.1 = T ∧
      add_debug_to_error_responses T = weave (subParts mErrFlat T).1 (subParts mErrFlat T).2.2) :=
  ⟨subLoop_weave mErrNested T, subLoop_weave mErrFlat T⟩

/-- C5: every matched failure-payload response is replaced by the canonical
build-then-emit shape: the replacement text declares `const errorResponse`,
re-emits with the same status code `N`, and sends
`debugInfo ? expertModeService.attachDebugInfo(errorResponse, debugInfo) :
errorResponse`, for both the flat pass of add-error-debug-info.py and the
depth-aware pass of fix-all-error-responses.py. -/
theorem c5_canonical_replacement (N B : Chars) (hN : digitsOnly N) (hNne : N ≠ [])
    (hB : braceFree B) (hBne : B ≠ []) :
    add_debug_to_error_responses (stmtFlat N B) = replErrFlat N B ∧
      fix_error_responses (stmtNested N B) = replErrNested N ([' '] ++ B ++ [' ']) :=
  ⟨add_debug_stmtFlat N B hN hNne hB hBne,
   fix_error_responses_stmtNested N B hN hNne hB⟩

/-- C5 witness: the canonical replacement at a concrete statement. -/
theorem c5_canonical_replacement_witness :
    (digitsOnly ("404".data) ∧ "404".data ≠ [] ∧ braceFree ("code: 1".data) ∧
      "code: 1".data ≠ []) ∧
    add_debug_to_error_responses (stmtFlat ("404".data) ("code: 1".data)) =
      replErrFlat ("404".data) ("code: 1".data) ∧
    fix_error_responses (stmtNested ("404".data) ("code: 1".data)) =
      replErrNested ("404".data) ([' '] ++ "code: 1".data ++ [' ']) :=
  ⟨⟨by decide, by decide, by decide, by decide⟩,
   c5_canonical_replacement ("404".data) ("code: 1".data)
     (by decide) (by decide) (by decide) (by decide)⟩

/-- C6: a pass whose pattern has zero matches returns its input unchanged —
the passes are total functions (they cannot raise), and when no position of
the text matches the pattern the output is byte-identical to the input, for
each modelled pass. -/
theorem c6_zero_matches_identity (T : Chars) :
    (anyMatch mInit T = false → add_expert_mode_init T = T) ∧
    (anyMatch mCatch T = false → add_debug_to_catch_block T = T) ∧
    (anyMatch mErrFlat T = false → add_debug_to_error_responses T = T) ∧
    (anyMatch mErrNested T = false → fix_error_responses T = T) ∧
    (anyMatch mEarly T = false → add_debug_to_early_returns T = T) :=
  ⟨subLoop_no_match mInit T, subLoop_no_match mCatch T, subLoop_no_match mErrFlat T,
   subLoop_no_match mErrNested T, subLoop_no_match mEarly T⟩

/-- C6 witness: the zero-match identity at a concrete text. -/
theorem c6_zero_matches_identity_witness :
    anyMatch mInit plainText = false ∧ add_expert_mode_init plainText = plainText ∧
      add_debug_to_catch_block plainText = plainText ∧
      fix_error_responses plainText = plainText :=
  ⟨by decide, (c6_zero_matches_identity plainText).1 (by decide),
   (c6_zero_matches_identity plainText).2.1 (by decide),
   (c6_zero_matches_identity plainText).2.2.2.1 (by decide)⟩

/-- C7 counterexample: a POST handler on `"/metrics"` — a (method, path)
pair that does not appear in the static table, whose only `/metrics` entry
is for GET — still gets the placeholder substituted, and with the table's
GET operation name: resolution is keyed on the path text and any of
get/post/delete, not on the handler's method+path pair. -/
theorem c7_post_metrics_substituted :
    occursIn opMetricsName (fix_operation_names postMetricsHandler) = true ∧
      occursIn opPlaceholder (fix_operation_names postMetricsHandler) = false := by decide

/-- C7 (amended): the resolution pass substitutes the table's canonical name
whenever the handler's path-pattern text appears in the table and the method
token is any of get/post/delete, regardless of the table entry's method; if
no table path occurs in the text at all, the pass returns it unchanged, so a
placeholder in such a handler is left as-is and the run does not fail.  The
pass itself prints nothing, so the unresolved case is not reported. -/
theorem c7_path_keyed_resolution :
    (∀ T : Chars, (∀ e ∈ routes, occursIn e.1 T = false) → fix_operation_names T = T) ∧
      occursIn opMetricsName (fix_operation_names getMetricsHandler) = true :=
  ⟨fun T h => fix_operation_names_id T h, by decide⟩

/-- C7 witness: the no-table-path case applied at a concrete text. -/
theorem c7_path_keyed_resolution_witness :
    (∀ e ∈ routes, occursIn e.1 plainText = false) ∧
      fix_operation_names plainText = plainText :=
  ⟨by decide, c7_path_keyed_resolution.1 plainText (by decide)⟩

/-- C8 counterexample: there is no input on which the fall-through branch
`return match.group(0)` of `add_debug_to_early_returns` executes: whenever
the outer pattern matches, the captured response group necessarily has the
shape the inner `re.search` looks for, so the search never returns `None`. -/
theorem c8_no_fallback_input :
    ¬ ∃ (s g1 g2 : Chars) (len : Nat),
        earlyMatchAt s = some (g1, g2, len) ∧ innerSearch g2 = none := by
  rintro ⟨s, g1, g2, len, h, hn⟩
  exact earlyMatchAt_inner_some s g1 g2 len h hn

/-- C8 (amended): the fall-through branch is dead code — for every text on
which the outer early-return pattern matches, the inner search over the
captured response succeeds, so the transformed replacement is always
produced and `return match.group(0)` is unreachable. -/
theorem c8_fallback_dead (s g1 g2 : Chars) (len : Nat)
    (h : earlyMatchAt s = some (g1, g2, len)) : innerSearch g2 ≠ none :=
  earlyMatchAt_inner_some s g1 g2 len h

/-- C8 witness: a concrete matched early-return region whose inner search
succeeds. -/
theorem c8_fallback_dead_witness :
    earlyMatchAt earlyGuardStmt = some (earlyGuardG1, earlyGuardG2, earlyGuardStmt.length) ∧
      innerSearch earlyGuardG2 ≠ none :=
  ⟨by decide,
   c8_fallback_dead earlyGuardStmt earlyGuardG1 earlyGuardG2 earlyGuardStmt.length (by decide)⟩

/-- C9: the rewrite of `handleExpertModeResponse` calls contains an
`addMetadata` call in its generated replacement exactly when the captured
metadata, after stripping, is non-empty and splits on `:` into exactly two
parts; metadata with no colon or more than one colon (for example a URL
value) is silently omitted from the inserted code. -/
theorem c9_metadata_condition (op integ meta : Chars) :
    occursIn litAddMeta (mkExpertRepl op integ meta) =
      (!(pyStrip meta).isEmpty && ((splitOnColon (pyStrip meta)).length == 2)) := by
  simp only [mkExpertRepl]
  by_cases hm : (pyStrip meta).isEmpty = true
  · rw [if_pos hm, hm]
    simp only [List.append_nil, Bool.not_true, Bool.false_and]
    decide
  · rw [if_neg hm]
    rw [Bool.not_eq_true] at hm
    rw [hm]
    cases hsp : splitOnColon (pyStrip meta) with
    | nil => decide
    | cons k l1 =>
      cases l1 with
      | nil =>
        rw [show (match [k] with
            | [k, v] => addMetaLine (pyStrip k) (pyStrip v)
            | _ => ([] : Chars)) = [] from rfl]
        simp only [List.length_cons, List.length_nil]
        decide
      | cons v l2 =>
        cases l2 with
        | nil =>
          have hline : occursIn litAddMeta (addMetaLine (pyStrip k) (pyStrip v)) = true := by
            unfold addMetaLine
            apply occursIn_append_left
            apply occursIn_append_left
            apply occursIn_append_left
            apply occursIn_append_left
            decide
          have hwhole : occursIn litAddMeta
              (expertBase1 ++ addMetaLine (pyStrip k) (pyStrip v) ++ expertBase2) = true := by
            apply occursIn_append_left
            exact occursIn_append_right _ _ _ hline
          rw [show (match [k, v] with
              | [k, v] => addMetaLine (pyStrip k) (pyStrip v)
              | _ => ([] : Chars)) = addMetaLine (pyStrip k) (pyStrip v) from rfl]
          rw [hwhole]
          simp only [List.length_cons, List.length_nil]
          decide
        | cons w l3 =>
          rw [show (match k :: v :: w :: l3 with
              | [k, v] => addMetaLine (pyStrip k) (pyStrip v)
              | _ => ([] : Chars)) = [] from rfl]
          rw [show occursIn litAddMeta ((expertBase1 ++ ([] : Chars)) ++ expertBase2) = false
            from by decide]
          simp only [List.length_cons, Bool.not_false, Bool.true_and]
          symm
          rw [beq_eq_false_iff_ne]
          omega

/-- C10: neither driver modifies any file.  `fix_lint_errors_main` computes
the fixed content of each TypeScript file for its report, but its write call
is commented out, so the returned file list carries every file's original
content; `add_logging_to_routes_main` only scans the routes file for its
report and never invokes the transformation or writes.  After either run the
file system is byte-identical to before. -/
theorem c10_no_file_modification (fs : List (String × Chars)) :
    (fix_lint_errors_main fs).1 = fs ∧ (add_logging_to_routes_main fs).1 = fs := by
  constructor
  · simp [fix_lint_errors_main]
  · unfold add_logging_to_routes_main
    cases lookupFile fs integrationsPath <;> rfl
